import Mathlib

/-!
Verification of the DDRCardDraw catalog validator.

This file gives a shallow embedding of `scripts/validate.mjs` (the function
`validateContents` and the per-file driver loop) and of `getDiffAbbr` from
`src/game-data-utils.tsx`, and proves properties of the validator against it.

Modelling conventions:
* JavaScript objects holding locale dictionaries become association lists
  `List (String × _)` read with `List.lookup`; a missing property is `none`.
* A JavaScript property access that can be `undefined` is an `Option`; an
  access on `undefined` that would raise a `TypeError` is modelled by
  `Except.error`, so `validateContents` returns `Except String (List String)`.
* JavaScript truthiness of a possibly-absent string is `truthy` below
  (absent and `""` are falsy); truthiness of a possibly-absent number is
  `truthyInt` (absent and `0` are falsy).
* Machine numbers in the data files are JSON integers, modelled as `Int`.
* `existsSync` on a path inside the jackets directory is abstracted as a
  function `String → Bool` applied to the jacket file name.
-/

/-- One entry of `meta.difficulties`: the validator only reads its `key`. -/
structure Difficulty where
  key : String
deriving DecidableEq

/-- One locale dictionary of `i18n`: its plain string entries, and its
`"$abbr"` sub-dictionary when present (`none` models an absent `$abbr`). -/
structure I18NDict where
  strings : List (String × String)
  abbr : Option (List (String × String))
deriving DecidableEq

/-- The `meta` section of a data file. -/
structure FileMeta where
  styles : List String
  difficulties : List Difficulty
  flags : List String
  lvlMax : Int
  usesDrawGroups : Bool
deriving DecidableEq

/-- The `defaults` section of a data file. -/
structure FileDefaults where
  style : Option String
  difficulties : List String
  flags : List String
  lowerLvlBound : Int
  upperLvlBound : Int
deriving DecidableEq

/-- A chart of a song. `lvl` and `drawGroup` are optional: the schema demands
one or the other depending on `meta.usesDrawGroups`. -/
structure Chart where
  style : String
  diffClass : String
  lvl : Option Int
  drawGroup : Option Int
deriving DecidableEq

/-- A song entry. -/
structure Song where
  name : String
  jacket : Option String
  charts : List Chart
deriving DecidableEq

/-- A whole catalog data file (`SongData`). `i18n` is an association list
from locale name to locale dictionary. -/
structure DataFile where
  meta : FileMeta
  defaults : FileDefaults
  i18n : List (String × I18NDict)
  songs : List Song
deriving DecidableEq

/-- JS truthiness of a possibly-undefined string value. -/
def truthy : Option String → Bool
  | none => false
  | some s => s != ""

/-- JS truthiness of a possibly-undefined integer value. -/
def truthyInt : Option Int → Bool
  | none => false
  | some n => n != 0

/-- The `allKeys` array of `validateContents` (validate.mjs lines 15-19). -/
def allKeysOf (d : DataFile) : List String :=
  d.meta.styles ++ d.meta.difficulties.map (fun x => x.key) ++ d.meta.flags

/-- The difficulty key set of `validateContents` (validate.mjs line 21);
JS `Set` membership over a list of strings is `List.contains`. -/
def diffKeysOf (d : DataFile) : List String :=
  d.meta.difficulties.map (fun x => x.key)

/-- The body of the `for (const key of allKeys)` loop of `validateContents`
(validate.mjs lines 52-64), run over the key list.  `en?` is
`dataFile.i18n.en` (possibly undefined: reading a property of it then
raises), `ja` is the (present) `dataFile.i18n.ja`, `diffs` the difficulty
key list.  Reading `[key]` on an undefined `"$abbr"` dictionary raises. -/
def translationErrors (en? : Option I18NDict) (ja : I18NDict)
    (diffs : List String) : List String → Except String (List String)
  | [] => Except.ok []
  | key :: rest =>
    match en? with
    | none =>
      Except.error ("TypeError: cannot read property " ++ key ++ " of undefined")
    | some en =>
      let m1 : List String :=
        if !(truthy (List.lookup key en.strings) && truthy (List.lookup key ja.strings))
        then ["missing translation for " ++ key] else []
      if diffs.contains key then
        match en.abbr with
        | none =>
          Except.error ("TypeError: cannot read property " ++ key ++ " of undefined")
        | some enAb =>
          if truthy (List.lookup key enAb) then
            match ja.abbr with
            | none =>
              Except.error ("TypeError: cannot read property " ++ key ++ " of undefined")
            | some jaAb =>
              match translationErrors en? ja diffs rest with
              | Except.error e => Except.error e
              | Except.ok tail =>
                Except.ok (m1 ++
                  (if !(truthy (List.lookup key jaAb))
                   then ["missing abbreviated translation for " ++ key] else []) ++ tail)
          else
            match translationErrors en? ja diffs rest with
            | Except.error e => Except.error e
            | Except.ok tail =>
              Except.ok (m1 ++ ["missing abbreviated translation for " ++ key] ++ tail)
      else
        match translationErrors en? ja diffs rest with
        | Except.error e => Except.error e
        | Except.ok tail => Except.ok (m1 ++ tail)

/-- The errors the inner `for (const chart of song.charts)` loop pushes for
one chart (validate.mjs lines 74-94).  `!chart.drawGroup` is JS truthiness,
so an absent draw group and a draw group of `0` both count as missing;
`chart.lvl > lvlMax` is false when `lvl` is absent (`undefined > n`). -/
def chartErrors (styles diffs : List String) (usesDrawGroups : Bool)
    (lvlMax : Int) (songName : String) (chart : Chart) : List String :=
  (if !(styles.contains chart.style)
   then ["unrecognized style \"" ++ chart.style ++ "\" used by " ++ songName] else []) ++
  (if !(diffs.contains chart.diffClass)
   then ["unrecognized diffClass \"" ++ chart.diffClass ++ "\" used by " ++ songName] else []) ++
  (if usesDrawGroups then
    (if !(truthyInt chart.drawGroup) then
      [songName ++ " is missing a draw group"]
     else if (chart.drawGroup.getD 0) > lvlMax then
      [songName ++ " has draw group above max"]
     else [])
   else
    (match chart.lvl with
     | some l => if l > lvlMax then [songName ++ " has chart above level max"] else []
     | none => []))

/-- The errors the `for (const song of dataFile.songs)` loop pushes for one
song (validate.mjs lines 67-95): the jacket existence check, then the chart
checks in chart order. -/
def songErrors (existsSync : String → Bool) (styles diffs : List String)
    (usesDrawGroups : Bool) (lvlMax : Int) (song : Song) : List String :=
  (match song.jacket with
   | some j => if j != "" && !(existsSync j) then ["missing jacket image " ++ j] else []
   | none => []) ++
  song.charts.flatMap (chartErrors styles diffs usesDrawGroups lvlMax song.name)

/-- The five document-level checks of `validateContents`
(validate.mjs lines 24-50), in push order. -/
def headErrors (d : DataFile) : List String :=
  (if d.meta.lvlMax < 1 then ["max level is below 1"] else []) ++
  (match d.defaults.style with
   | some s => if s != "" && !(d.meta.styles.contains s)
               then ["default style is not listed in meta"] else []
   | none => []) ++
  (if d.defaults.difficulties.any (fun k => !((diffKeysOf d).contains k))
   then ["some default difficulties are missing from meta"] else []) ++
  (if d.defaults.lowerLvlBound > d.defaults.upperLvlBound
   then ["default level bounds are reversed"] else []) ++
  (if d.defaults.lowerLvlBound > d.meta.lvlMax || d.defaults.upperLvlBound > d.meta.lvlMax
   then ["default level bounds are beyond max level"] else [])

/-- The per-song section of the error list (validate.mjs lines 67-95),
in song order. -/
def allSongErrors (existsSync : String → Bool) (d : DataFile) : List String :=
  d.songs.flatMap
    (songErrors existsSync d.meta.styles (diffKeysOf d) d.meta.usesDrawGroups d.meta.lvlMax)

/-- `validateContents` (validate.mjs lines 12-98).  Returns the pushed error
strings in push order, or `Except.error` when the JS function would raise a
`TypeError` (in the translation block, the only place an access can fault).
The translation block runs only when `dataFile.i18n.ja` is present
(an object is always truthy). -/
def validateContents (existsSync : String → Bool) (d : DataFile) :
    Except String (List String) :=
  match List.lookup "ja" d.i18n with
  | none => Except.ok (headErrors d ++ allSongErrors existsSync d)
  | some ja =>
    match translationErrors (List.lookup "en" d.i18n) ja (diffKeysOf d) (allKeysOf d) with
    | Except.error e => Except.error e
    | Except.ok ts => Except.ok (headErrors d ++ ts ++ allSongErrors existsSync d)

/-- `getDiffAbbr` (src/game-data-utils.tsx lines 26-30):
`gameData.i18n.en["$abbr"][diffClass]`.  Reading `["$abbr"]` on an absent
`en`, or `[diffClass]` on an absent `"$abbr"`, raises a `TypeError`; a
present `"$abbr"` dictionary without the key yields `undefined` (`none`). -/
def getDiffAbbr (gameData : DataFile) (diffClass : String) :
    Except String (Option String) :=
  match List.lookup "en" gameData.i18n with
  | none => Except.error "TypeError: cannot read property of undefined"
  | some en =>
    match en.abbr with
    | none => Except.error "TypeError: cannot read property of undefined"
    | some ab => Except.ok (List.lookup diffClass ab)

/-- Modelled from the spec: the structural check against `songs.schema.json`
(the schema file itself is not under `src/`).  The record types above already
capture the field typing the spec ascribes to the schema; what remains of
§3's description of a structurally valid document is that the `en` locale is
present and each locale carries its nested `$abbr` sub-dictionary of
strings. -/
def schemaValid (d : DataFile) : Bool :=
  (List.lookup "en" d.i18n).isSome && d.i18n.all (fun p => p.2.abbr.isSome)

/-- The external JSON-schema validator (the `jsonschema` package), abstracted
as the pair the driver loop reads: `result.valid` and `result.errors`
stringified. -/
structure SchemaValidator where
  valid : DataFile → Bool
  errors : DataFile → List String

/-- What the driver loop reports for one data file: either the schema
validator's errors (structurally invalid document) or the consistency errors
from `validateContents` (structurally valid document). -/
inductive DocReport where
  | schemaFailure : List String → DocReport
  | consistency : List String → DocReport
deriving DecidableEq

/-- One iteration of the driver loop (validate.mjs lines 107-126): run the
schema validator; only when it reports valid, run `validateContents`. -/
def processDoc (sv : SchemaValidator) (existsSync : String → Bool)
    (d : DataFile) : Except String DocReport :=
  if sv.valid d then
    match validateContents existsSync d with
    | Except.error e => Except.error e
    | Except.ok es => Except.ok (DocReport.consistency es)
  else
    Except.ok (DocReport.schemaFailure (sv.errors d))

/-- Whether one report sets the driver's `hasError` flag: any structurally
invalid document does, a valid one only when it has consistency errors. -/
def reportHasError : DocReport → Bool
  | DocReport.schemaFailure _ => true
  | DocReport.consistency es => !es.isEmpty

/-- The filesystem state the run reads and writes: the jacket assets
directory (read-only) and the contents of the generated type-binding file at
`src/models/SongData.ts` (overwritten on success). -/
structure RunState where
  jackets : String → Bool
  bindings : Option String

/-- The driver loop over the document list, in directory order. -/
def docReports (sv : SchemaValidator) (existsSync : String → Bool) :
    List DataFile → Except String (List DocReport)
  | [] => Except.ok []
  | d :: ds =>
    match processDoc sv existsSync d with
    | Except.error e => Except.error e
    | Except.ok r =>
      match docReports sv existsSync ds with
      | Except.error e => Except.error e
      | Except.ok rs => Except.ok (r :: rs)

/-- A whole run of validate.mjs (lines 100-144): validate every document,
and only when no document had any error, write the compiled type bindings
(`compiled` abstracts the output of `json-schema-to-typescript` on the fixed
schema) over the bindings file. -/
def runValidator (sv : SchemaValidator) (compiled : String)
    (docs : List DataFile) (st : RunState) :
    Except String (List DocReport × RunState) :=
  match docReports sv st.jackets docs with
  | Except.error e => Except.error e
  | Except.ok reports =>
    if reports.any reportHasError then Except.ok (reports, st)
    else Except.ok (reports, { st with bindings := some compiled })

/-- Claim-side reading of "key `k` has a translation in locale `loc`":
a present, non-empty entry (the validator's own truthiness notion). -/
def hasTr (loc : I18NDict) (k : String) : Bool :=
  truthy (List.lookup k loc.strings)

/-- Claim-side reading of "difficulty key `k` has an abbreviated translation
in locale `loc`". -/
def hasAbbrTr (loc : I18NDict) (k : String) : Bool :=
  match loc.abbr with
  | none => false
  | some ab => truthy (List.lookup k ab)

/-- Claim-side: locale `loc` is translation-complete against `en` for the
given key and difficulty-key lists. -/
def localeComplete (en loc : I18NDict) (keys diffs : List String) : Bool :=
  keys.all (fun k => hasTr en k && hasTr loc k) &&
  diffs.all (fun k => hasAbbrTr en k && hasAbbrTr loc k)

/-- Claim-side invariant of §3: every non-English locale is
translation-complete (including abbreviations for difficulty keys). -/
def translationComplete (d : DataFile) : Bool :=
  d.i18n.all (fun p =>
    p.1 == "en" ||
    (match List.lookup "en" d.i18n with
     | some en => localeComplete en p.2 (allKeysOf d) (diffKeysOf d)
     | none => false))

/-- Claim C1's reading of the chart invariant: `drawGroup`/`lvl` is present
as `usesDrawGroups` requires, and bounded by `lvlMax`. -/
def chartInvariantClaim (usesDrawGroups : Bool) (lvlMax : Int) (c : Chart) : Bool :=
  if usesDrawGroups then
    match c.drawGroup with
    | some g => decide (g ≤ lvlMax)
    | none => false
  else
    match c.lvl with
    | some l => decide (l ≤ lvlMax)
    | none => false

/-- The chart invariant as the code actually enforces it: when draw groups
are used the draw group must moreover be nonzero (JS truthiness). -/
def chartInvariantAmended (usesDrawGroups : Bool) (lvlMax : Int) (c : Chart) : Bool :=
  if usesDrawGroups then
    match c.drawGroup with
    | some g => g != 0 && decide (g ≤ lvlMax)
    | none => false
  else
    match c.lvl with
    | some l => decide (l ≤ lvlMax)
    | none => false

/-- The semantic invariants of §3 as listed in claim C1, with the chart
invariant supplied as a parameter. -/
def semanticInvariantsWith (chartInv : Bool → Int → Chart → Bool)
    (existsSync : String → Bool) (d : DataFile) : Bool :=
  decide (1 ≤ d.meta.lvlMax) &&
  (match d.defaults.style with
   | some s => d.meta.styles.contains s
   | none => true) &&
  d.defaults.difficulties.all (fun k => (diffKeysOf d).contains k) &&
  decide (d.defaults.lowerLvlBound ≤ d.defaults.upperLvlBound) &&
  decide (d.defaults.upperLvlBound ≤ d.meta.lvlMax) &&
  translationComplete d &&
  d.songs.all (fun s =>
    (match s.jacket with
     | some j => existsSync j
     | none => true) &&
    s.charts.all (fun c =>
      d.meta.styles.contains c.style &&
      (diffKeysOf d).contains c.diffClass &&
      chartInv d.meta.usesDrawGroups d.meta.lvlMax c))

/-- The §3 invariants exactly as claim C1 states them. -/
def semanticInvariants : (String → Bool) → DataFile → Bool :=
  semanticInvariantsWith chartInvariantClaim

/-- The §3 invariants with the draw-group presence read as the code's
truthiness test (nonzero). -/
def semanticInvariantsAmended : (String → Bool) → DataFile → Bool :=
  semanticInvariantsWith chartInvariantAmended

/-- The two errors the translation loop can push for one key, phrased with
the claim-side `hasTr`/`hasAbbrTr` predicates. -/
def perKeyErrors (en ja : I18NDict) (diffs : List String) (key : String) : List String :=
  (if !(hasTr en key && hasTr ja key) then ["missing translation for " ++ key] else []) ++
  (if diffs.contains key && !(hasAbbrTr en key && hasAbbrTr ja key)
   then ["missing abbreviated translation for " ++ key] else [])

def exFs : String → Bool := fun _ => false

def exChartDg0 : Chart :=
  { style := "single", diffClass := "basic", lvl := none, drawGroup := some 0 }

def exSongDg0 : Song :=
  { name := "SongA", jacket := none, charts := [exChartDg0] }

/-- A structurally valid document whose only blemish is a chart with
`drawGroup = 0` under `usesDrawGroups`. -/
def exDocC1 : DataFile :=
  { meta := { styles := ["single"], difficulties := [{ key := "basic" }],
              flags := [], lvlMax := 19, usesDrawGroups := true }
    defaults := { style := none, difficulties := [], flags := [],
                  lowerLvlBound := 1, upperLvlBound := 19 }
    i18n := [("en", { strings := [], abbr := some [] })]
    songs := [exSongDg0] }

def exFsGood : String → Bool := fun j => j == "songa.png"

/-- A fully consistent document exercising every check, including the ja
translation block and a jacket that exists. -/
def exDocGood : DataFile :=
  { meta := { styles := ["single"], difficulties := [{ key := "basic" }],
              flags := ["tempUnlock"], lvlMax := 19, usesDrawGroups := true }
    defaults := { style := some "single", difficulties := ["basic"],
                  flags := ["hiddenPlus"], lowerLvlBound := 1, upperLvlBound := 19 }
    i18n := [("en", { strings := [("single", "Single"), ("basic", "Basic"),
                                  ("tempUnlock", "Temporarily Unlocked")],
                      abbr := some [("basic", "BSC")] }),
             ("ja", { strings := [("single", "Single JA"), ("basic", "Basic JA"),
                                  ("tempUnlock", "Unlock JA")],
                      abbr := some [("basic", "B JA")] })]
    songs := [{ name := "SongA", jacket := some "songa.png",
                charts := [{ style := "single", diffClass := "basic",
                             lvl := none, drawGroup := some 3 }] }] }

def exChartNoDg : Chart :=
  { style := "single", diffClass := "basic", lvl := none, drawGroup := none }

def exSongNoDg : Song :=
  { name := "SongB", jacket := none, charts := [exChartNoDg] }

/-- A structurally valid draw-group document with a chart lacking its
`drawGroup`. -/
def exDocC4 : DataFile :=
  { meta := { styles := ["single"], difficulties := [{ key := "basic" }],
              flags := [], lvlMax := 19, usesDrawGroups := true }
    defaults := { style := none, difficulties := [], flags := [],
                  lowerLvlBound := 1, upperLvlBound := 19 }
    i18n := [("en", { strings := [], abbr := some [] })]
    songs := [exSongNoDg] }

def exFrLoc : I18NDict := { strings := [], abbr := some [] }

/-- A structurally valid document with a non-English locale `fr` that is
missing every translation; the validator never looks at it. -/
def exDocFr : DataFile :=
  { meta := { styles := ["single"], difficulties := [], flags := [],
              lvlMax := 19, usesDrawGroups := false }
    defaults := { style := none, difficulties := [], flags := [],
                  lowerLvlBound := 1, upperLvlBound := 19 }
    i18n := [("en", { strings := [("single", "Single")], abbr := some [] }),
             ("fr", exFrLoc)]
    songs := [] }

def exEnLocC2 : I18NDict :=
  { strings := [("single", "Single"), ("basic", "Basic")],
    abbr := some [("basic", "BSC")] }

def exJaLocC2 : I18NDict := { strings := [("single", "Single JA")], abbr := some [] }

/-- A structurally valid document whose ja locale is missing the translation
and the abbreviated translation of the difficulty key "basic". -/
def exDocC2 : DataFile :=
  { meta := { styles := ["single"], difficulties := [{ key := "basic" }],
              flags := [], lvlMax := 19, usesDrawGroups := false }
    defaults := { style := none, difficulties := [], flags := [],
                  lowerLvlBound := 1, upperLvlBound := 19 }
    i18n := [("en", exEnLocC2), ("ja", exJaLocC2)]
    songs := [] }

/-- A schema validator that rejects everything, reporting one structural
error. -/
def exBadValidator : SchemaValidator :=
  { valid := fun _ => false
    errors := fun _ => ["instance.songs is not of a type(s) array"] }

/-- A schema validator that accepts everything. -/
def exOkValidator : SchemaValidator :=
  { valid := fun _ => true, errors := fun _ => [] }

def exState : RunState := { jackets := exFsGood, bindings := none }

/-- Spec-side (§4.1): the level-max sanity check. -/
def levelMaxCheck (d : DataFile) : List String :=
  if d.meta.lvlMax < 1 then ["max level is below 1"] else []

/-- Spec-side (§4.1): the default-style membership check. -/
def defaultStyleCheck (d : DataFile) : List String :=
  match d.defaults.style with
  | some s => if s != "" && !(d.meta.styles.contains s)
              then ["default style is not listed in meta"] else []
  | none => []

/-- Spec-side (§4.1): the default-difficulties membership check. -/
def defaultDifficultiesCheck (d : DataFile) : List String :=
  if d.defaults.difficulties.any (fun k => !((diffKeysOf d).contains k))
  then ["some default difficulties are missing from meta"] else []

/-- Spec-side (§4.1): the level-bound ordering check. -/
def boundsReversedCheck (d : DataFile) : List String :=
  if d.defaults.lowerLvlBound > d.defaults.upperLvlBound
  then ["default level bounds are reversed"] else []

/-- Spec-side (§4.1): the bound-vs-max check. -/
def boundsBeyondMaxCheck (d : DataFile) : List String :=
  if d.defaults.lowerLvlBound > d.meta.lvlMax || d.defaults.upperLvlBound > d.meta.lvlMax
  then ["default level bounds are beyond max level"] else []

/-- Spec-side (§4.1): the per-song jacket asset existence check. -/
def jacketCheck (existsSync : String → Bool) (song : Song) : List String :=
  match song.jacket with
  | some j => if j != "" && !(existsSync j) then ["missing jacket image " ++ j] else []
  | none => []

/-- Spec-side (§4.1): the per-chart style recognition check. -/
def styleCheck (d : DataFile) (songName : String) (chart : Chart) : List String :=
  if !(d.meta.styles.contains chart.style)
  then ["unrecognized style \"" ++ chart.style ++ "\" used by " ++ songName] else []

/-- Spec-side (§4.1): the per-chart diffClass recognition check. -/
def diffClassCheck (d : DataFile) (songName : String) (chart : Chart) : List String :=
  if !((diffKeysOf d).contains chart.diffClass)
  then ["unrecognized diffClass \"" ++ chart.diffClass ++ "\" used by " ++ songName] else []

/-- Spec-side (§4.1): the per-chart level-vs-drawGroup policy check. -/
def levelPolicyCheck (d : DataFile) (songName : String) (chart : Chart) : List String :=
  if d.meta.usesDrawGroups then
    (if !(truthyInt chart.drawGroup) then
      [songName ++ " is missing a draw group"]
     else if (chart.drawGroup.getD 0) > d.meta.lvlMax then
      [songName ++ " has draw group above max"]
     else [])
  else
    (match chart.lvl with
     | some l => if l > d.meta.lvlMax then [songName ++ " has chart above level max"] else []
     | none => [])

/-- Spec-side (§4.1): one chart's errors: style, then diffClass, then the
level policy. -/
def chartCheckList (d : DataFile) (songName : String) (chart : Chart) : List String :=
  styleCheck d songName chart ++ diffClassCheck d songName chart ++
    levelPolicyCheck d songName chart

/-- Spec-side (§4.1): one song's errors: jacket existence, then its charts
in document order. -/
def songCheckList (existsSync : String → Bool) (d : DataFile) (song : Song) : List String :=
  jacketCheck existsSync song ++ song.charts.flatMap (chartCheckList d song.name)

/-- `exDocGood` with an extra `fr` locale prepended: the English entry is
unchanged. -/
def exDocC10 : DataFile :=
  { exDocGood with i18n := ("fr", exFrLoc) :: exDocGood.i18n }

def withDefaultFlags (d : DataFile) (fl : List String) : DataFile :=
  { d with defaults := { d.defaults with flags := fl } }

theorem lookup_mem {β : Type} {k : String} {v : β} :
    ∀ {l : List (String × β)}, List.lookup k l = some v → (k, v) ∈ l := by
  intro l
  induction l with
  | nil => intro h; simp [List.lookup] at h
  | cons p rest ih =>
    intro h
    obtain ⟨a, b⟩ := p
    by_cases hk : k = a
    · subst hk
      simp [List.lookup] at h
      subst h
      exact List.mem_cons_self _ _
    · rw [List.lookup_cons] at h
      have : (k == a) = false := beq_false_of_ne hk
      rw [this] at h
      exact List.mem_cons_of_mem _ (ih h)

theorem mem_ite_singleton {c : Prop} [Decidable c] {x a : String}
    (h : x ∈ (if c then [a] else [])) : x = a := by
  split at h
  · simpa using h
  · simp at h

theorem string_append_left_ne (p c : String) (h : ¬ p.data <+: c.data)
    (s : String) : p ++ s ≠ c := by
  intro he
  apply h
  rw [← he, String.data_append]
  exact List.prefix_append _ _

theorem string_append_right_ne (t c : String) (h : ¬ t.data <:+ c.data)
    (s : String) : s ++ t ≠ c := by
  intro he
  apply h
  rw [← he, String.data_append]
  exact List.suffix_append _ _

theorem hasAbbrTr_destruct {loc : I18NDict} {k : String} (h : hasAbbrTr loc k = true) :
    ∃ ab, loc.abbr = some ab ∧ truthy (List.lookup k ab) = true := by
  unfold hasAbbrTr at h
  cases hab : loc.abbr with
  | none => rw [hab] at h; exact absurd h (by simp)
  | some ab => rw [hab] at h; exact ⟨ab, rfl, h⟩

theorem translationErrors_ok (en ja : I18NDict) (diffs : List String)
    (enAb jaAb : List (String × String))
    (hen : en.abbr = some enAb) (hja : ja.abbr = some jaAb) :
    ∀ keys, ∃ ts, translationErrors (some en) ja diffs keys = Except.ok ts := by
  intro keys
  induction keys with
  | nil => exact ⟨[], rfl⟩
  | cons key rest ih =>
    obtain ⟨ts, hts⟩ := ih
    by_cases hd : diffs.contains key
    · by_cases ht : truthy (List.lookup key enAb) = true
      · exact ⟨_, (by simp only [translationErrors, hen, hja, hts, hd, ht, if_true]; rfl)⟩
      · exact ⟨_, (by simp only [translationErrors, hen, hja, hts, hd, if_true]; rw [if_neg ht])⟩
    · exact ⟨_, (by simp only [translationErrors, hen, hja, hts]; rw [if_neg (fun h => hd h)])⟩

theorem translationErrors_nil (en ja : I18NDict) (diffs : List String) :
    ∀ keys, (∀ k ∈ keys, hasTr en k = true ∧ hasTr ja k = true) →
      (∀ k ∈ keys, diffs.contains k = true → hasAbbrTr en k = true ∧ hasAbbrTr ja k = true) →
      translationErrors (some en) ja diffs keys = Except.ok [] := by
  intro keys
  induction keys with
  | nil => intro _ _; rfl
  | cons key rest ih =>
    intro h1 h2
    have hk1 := h1 key (List.mem_cons_self _ _)
    unfold hasTr at hk1
    have htail := ih (fun k hk => h1 k (List.mem_cons_of_mem _ hk))
      (fun k hk => h2 k (List.mem_cons_of_mem _ hk))
    by_cases hd : diffs.contains key
    · obtain ⟨habEn, habJa⟩ := h2 key (List.mem_cons_self _ _) hd
      obtain ⟨enAb, henAb, htEn⟩ := hasAbbrTr_destruct habEn
      obtain ⟨jaAb, hjaAb, htJa⟩ := hasAbbrTr_destruct habJa
      simp only [translationErrors, henAb, hjaAb, htail, hd, htEn, if_true,
        hk1.1, hk1.2, Bool.and_self, Bool.not_true, Bool.false_eq_true,
        if_false, htJa, List.append_nil, List.nil_append]
    · simp only [translationErrors, htail, hk1.1, hk1.2, Bool.and_self,
        Bool.not_true, Bool.false_eq_true, if_false, List.nil_append]
      rw [if_neg (fun h => hd h)]

theorem translationErrors_ok_eq (en ja : I18NDict) (diffs : List String) :
    ∀ keys ts, translationErrors (some en) ja diffs keys = Except.ok ts →
      ts = keys.flatMap (perKeyErrors en ja diffs) := by
  intro keys
  induction keys with
  | nil =>
    intro ts h
    injection h with h
    subst h
    rfl
  | cons key rest ih =>
    intro ts hok
    simp only [translationErrors] at hok
    by_cases hd : diffs.contains key
    · rw [if_pos hd] at hok
      split at hok
      · cases hok
      · rename_i enAb henAb
        split at hok
        · rename_i ht
          split at hok
          · cases hok
          · rename_i jaAb hjaAb
            split at hok
            · cases hok
            · rename_i tail hrec
              injection hok with hok
              subst hok
              rw [List.flatMap_cons, ← ih tail hrec]
              have hdm : key ∈ diffs := by simpa using hd
              unfold perKeyErrors hasTr hasAbbrTr
              rw [henAb, hjaAb]
              simp [ht, hd, hdm, List.append_assoc]
        · rename_i ht
          split at hok
          · cases hok
          · rename_i tail hrec
            injection hok with hok
            subst hok
            rw [List.flatMap_cons, ← ih tail hrec]
            have hdm : key ∈ diffs := by simpa using hd
            unfold perKeyErrors hasTr hasAbbrTr
            rw [henAb]
            simp only [Bool.not_eq_true] at ht
            simp [ht, hd, hdm, List.append_assoc]
    · rw [if_neg (fun h => hd h)] at hok
      split at hok
      · cases hok
      · rename_i tail hrec
        injection hok with hok
        subst hok
        rw [List.flatMap_cons, ← ih tail hrec]
        have hd' : diffs.contains key = false := by
          cases hcc : diffs.contains key
          · rfl
          · exact absurd hcc hd
        have hcond : (diffs.contains key && !(hasAbbrTr en key && hasAbbrTr ja key)) = false := by
          rw [hd', Bool.false_and]
        unfold perKeyErrors hasTr
        rw [hcond]
        simp [List.append_assoc]

theorem en_of_schemaValid {d : DataFile} (h : schemaValid d = true) :
    ∃ en, List.lookup "en" d.i18n = some en := by
  unfold schemaValid at h
  rw [Bool.and_eq_true] at h
  exact Option.isSome_iff_exists.mp h.1

theorem abbr_of_schemaValid {d : DataFile} (h : schemaValid d = true) {name : String}
    {loc : I18NDict} (hl : List.lookup name d.i18n = some loc) :
    ∃ ab, loc.abbr = some ab := by
  unfold schemaValid at h
  rw [Bool.and_eq_true] at h
  have hmem := lookup_mem hl
  have hloc := (List.all_eq_true.mp h.2) _ hmem
  exact Option.isSome_iff_exists.mp hloc

theorem validateContents_ok_inv (existsSync : String → Bool) (d : DataFile)
    (es : List String) (h : validateContents existsSync d = Except.ok es) :
    ∃ ts, es = headErrors d ++ ts ++ allSongErrors existsSync d ∧
      ((List.lookup "ja" d.i18n = none ∧ ts = []) ∨
       (∃ ja, List.lookup "ja" d.i18n = some ja ∧
          translationErrors (List.lookup "en" d.i18n) ja (diffKeysOf d) (allKeysOf d)
            = Except.ok ts)) := by
  unfold validateContents at h
  split at h
  · rename_i hja
    injection h with h
    exact ⟨[], by simp [← h], Or.inl ⟨hja, rfl⟩⟩
  · rename_i ja hja
    split at h
    · cases h
    · rename_i ts hts
      injection h with h
      exact ⟨ts, h.symm, Or.inr ⟨ja, hja, hts⟩⟩

theorem validateContents_ok_parts (existsSync : String → Bool) (d : DataFile)
    (h : schemaValid d = true) :
    (List.lookup "ja" d.i18n = none ∧
       validateContents existsSync d
         = Except.ok (headErrors d ++ allSongErrors existsSync d)) ∨
    (∃ ja en ts, List.lookup "ja" d.i18n = some ja ∧ List.lookup "en" d.i18n = some en ∧
       translationErrors (some en) ja (diffKeysOf d) (allKeysOf d) = Except.ok ts ∧
       validateContents existsSync d
         = Except.ok (headErrors d ++ ts ++ allSongErrors existsSync d)) := by
  cases hja : List.lookup "ja" d.i18n with
  | none =>
    refine Or.inl ⟨rfl, ?_⟩
    unfold validateContents
    rw [hja]
  | some ja =>
    obtain ⟨en, hen⟩ := en_of_schemaValid h
    obtain ⟨enAb, henAb⟩ := abbr_of_schemaValid h hen
    obtain ⟨jaAb, hjaAb⟩ := abbr_of_schemaValid h hja
    obtain ⟨ts, hts⟩ :=
      translationErrors_ok en ja (diffKeysOf d) enAb jaAb henAb hjaAb (allKeysOf d)
    refine Or.inr ⟨ja, en, ts, rfl, hen, hts, ?_⟩
    unfold validateContents
    rw [hja, hen]
    simp only [hts]

theorem headErrors_nil (d : DataFile)
    (h1 : (1 : Int) ≤ d.meta.lvlMax)
    (h2 : ∀ s, d.defaults.style = some s → d.meta.styles.contains s = true)
    (h3 : ∀ k ∈ d.defaults.difficulties, (diffKeysOf d).contains k = true)
    (h4 : d.defaults.lowerLvlBound ≤ d.defaults.upperLvlBound)
    (h5 : d.defaults.upperLvlBound ≤ d.meta.lvlMax) :
    headErrors d = [] := by
  unfold headErrors
  rw [if_neg (by omega)]
  rw [if_neg (by omega : ¬ d.defaults.lowerLvlBound > d.defaults.upperLvlBound)]
  have hb : ¬ ((decide (d.defaults.lowerLvlBound > d.meta.lvlMax)
      || decide (d.defaults.upperLvlBound > d.meta.lvlMax)) = true) := by
    simp only [Bool.or_eq_true, decide_eq_true_eq]
    omega
  rw [if_neg hb]
  have hdiff : ¬ (d.defaults.difficulties.any
      (fun k => !((diffKeysOf d).contains k)) = true) := by
    intro hany
    obtain ⟨k, hk, hnk⟩ := List.any_eq_true.mp hany
    rw [h3 k hk] at hnk
    simp at hnk
  rw [if_neg hdiff]
  cases hs : d.defaults.style with
  | none => rfl
  | some s =>
    have hmem : s ∈ d.meta.styles := by simpa using h2 s hs
    simp [hmem]

theorem chartErrors_nil (styles diffs : List String) (udg : Bool) (lvlMax : Int)
    (name : String) (c : Chart)
    (hs : styles.contains c.style = true)
    (hd : diffs.contains c.diffClass = true)
    (hp : chartInvariantAmended udg lvlMax c = true) :
    chartErrors styles diffs udg lvlMax name c = [] := by
  unfold chartErrors
  rw [hs, hd]
  simp only [Bool.not_true, Bool.false_eq_true, if_false, List.nil_append]
  unfold chartInvariantAmended at hp
  cases udg with
  | false =>
    simp only [Bool.false_eq_true, if_false] at hp ⊢
    cases hl : c.lvl with
    | none => simp
    | some l =>
      rw [hl] at hp
      have hple : l ≤ lvlMax := by simpa using hp
      have hnl : ¬ l > lvlMax := by omega
      simp [hnl]
  | true =>
    simp only [if_true] at hp ⊢
    cases hg : c.drawGroup with
    | none => rw [hg] at hp; exact absurd hp (by simp)
    | some g =>
      rw [hg] at hp
      have hp' : g ≠ 0 ∧ g ≤ lvlMax := by simpa using hp
      have ht : truthyInt (some g) = true := by simp [truthyInt, hp'.1]
      have hng : ¬ (some g).getD 0 > lvlMax := by
        simp only [Option.getD_some]
        omega
      simp [ht, hng, hp'.2]

theorem songErrors_nil (existsSync : String → Bool) (styles diffs : List String)
    (udg : Bool) (lvlMax : Int) (song : Song)
    (hj : ∀ j, song.jacket = some j → existsSync j = true)
    (hc : ∀ c ∈ song.charts, styles.contains c.style = true ∧
      diffs.contains c.diffClass = true ∧ chartInvariantAmended udg lvlMax c = true) :
    songErrors existsSync styles diffs udg lvlMax song = [] := by
  unfold songErrors
  have hcharts : song.charts.flatMap (chartErrors styles diffs udg lvlMax song.name) = [] := by
    rw [List.flatMap_eq_nil_iff]
    intro c hcmem
    obtain ⟨h1, h2, h3⟩ := hc c hcmem
    exact chartErrors_nil styles diffs udg lvlMax song.name c h1 h2 h3
  rw [hcharts]
  cases hjk : song.jacket with
  | none => simp
  | some j =>
    have := hj j hjk
    simp [this]

theorem allSongErrors_nil (existsSync : String → Bool) (d : DataFile)
    (h : ∀ song ∈ d.songs,
      (∀ j, song.jacket = some j → existsSync j = true) ∧
      ∀ c ∈ song.charts, d.meta.styles.contains c.style = true ∧
        (diffKeysOf d).contains c.diffClass = true ∧
        chartInvariantAmended d.meta.usesDrawGroups d.meta.lvlMax c = true) :
    allSongErrors existsSync d = [] := by
  unfold allSongErrors
  rw [List.flatMap_eq_nil_iff]
  intro song hmem
  exact songErrors_nil existsSync d.meta.styles (diffKeysOf d) d.meta.usesDrawGroups
    d.meta.lvlMax song (h song hmem).1 (h song hmem).2

theorem semanticInvariants_destruct {chartInv : Bool → Int → Chart → Bool}
    {existsSync : String → Bool} {d : DataFile}
    (h : semanticInvariantsWith chartInv existsSync d = true) :
    (1 : Int) ≤ d.meta.lvlMax ∧
    (∀ s, d.defaults.style = some s → d.meta.styles.contains s = true) ∧
    (∀ k ∈ d.defaults.difficulties, (diffKeysOf d).contains k = true) ∧
    d.defaults.lowerLvlBound ≤ d.defaults.upperLvlBound ∧
    d.defaults.upperLvlBound ≤ d.meta.lvlMax ∧
    translationComplete d = true ∧
    (∀ song ∈ d.songs, (∀ j, song.jacket = some j → existsSync j = true) ∧
       ∀ c ∈ song.charts, d.meta.styles.contains c.style = true ∧
         (diffKeysOf d).contains c.diffClass = true ∧
         chartInv d.meta.usesDrawGroups d.meta.lvlMax c = true) := by
  unfold semanticInvariantsWith at h
  simp only [Bool.and_eq_true] at h
  obtain ⟨⟨⟨⟨⟨⟨h1, h2⟩, h3⟩, h4⟩, h5⟩, h6⟩, h7⟩ := h
  refine ⟨by simpa using h1, ?_, ?_, by simpa using h4, by simpa using h5, h6, ?_⟩
  · intro s hs
    rw [hs] at h2
    simpa using h2
  · intro k hk
    exact List.all_eq_true.mp h3 k hk
  · intro song hsong
    have hs := List.all_eq_true.mp h7 song hsong
    rw [Bool.and_eq_true] at hs
    constructor
    · intro j hj
      have := hs.1
      rw [hj] at this
      simpa using this
    · intro c hc
      have := List.all_eq_true.mp hs.2 c hc
      simp only [Bool.and_eq_true] at this
      exact ⟨this.1.1, this.1.2, this.2⟩

theorem localeComplete_of_translationComplete {d : DataFile} {ja en : I18NDict}
    (htc : translationComplete d = true)
    (hja : List.lookup "ja" d.i18n = some ja)
    (hen : List.lookup "en" d.i18n = some en) :
    localeComplete en ja (allKeysOf d) (diffKeysOf d) = true := by
  unfold translationComplete at htc
  have hmem := lookup_mem hja
  have hthis := List.all_eq_true.mp htc _ hmem
  simp only [hen] at hthis
  rw [Bool.or_eq_true] at hthis
  cases hthis with
  | inl hcontra => exact absurd hcontra (by decide)
  | inr h => exact h

theorem trans_nil_of_complete {d : DataFile} {en ja : I18NDict}
    (hcomp : localeComplete en ja (allKeysOf d) (diffKeysOf d) = true) :
    translationErrors (some en) ja (diffKeysOf d) (allKeysOf d) = Except.ok [] := by
  unfold localeComplete at hcomp
  rw [Bool.and_eq_true] at hcomp
  apply translationErrors_nil
  · intro k hk
    have := List.all_eq_true.mp hcomp.1 k hk
    rw [Bool.and_eq_true] at this
    exact this
  · intro k _ hdk
    have hkd : k ∈ diffKeysOf d := by simpa using hdk
    have := List.all_eq_true.mp hcomp.2 k hkd
    rw [Bool.and_eq_true] at this
    exact this

/-- C1 fails as stated: `exDocC1` passes the structural check and satisfies
every §3 invariant as claim C1 words them (its draw group is present and
bounded), yet `validateContents` reports an error. -/
theorem claimC1_counterexample :
    schemaValid exDocC1 = true ∧ semanticInvariants exFs exDocC1 = true ∧
    ¬ (validateContents exFs exDocC1 = Except.ok []) := by
  refine ⟨rfl, rfl, ?_⟩
  intro h
  have hval : validateContents exFs exDocC1
      = Except.ok ["SongA is missing a draw group"] := rfl
  rw [hval] at h
  injection h with h
  simp at h

/-- C1 (amended): for every document that passes structural schema validation
and satisfies the §3 semantic invariants with the draw-group presence
requirement read as the code's truthiness test (present *and nonzero*),
`validateContents` returns the empty error list. -/
theorem claimC1_theorem (existsSync : String → Bool) (d : DataFile)
    (hsv : schemaValid d = true)
    (hsem : semanticInvariantsAmended existsSync d = true) :
    validateContents existsSync d = Except.ok [] := by
  have hsem' : semanticInvariantsWith chartInvariantAmended existsSync d = true := hsem
  obtain ⟨h1, h2, h3, h4, h5, h6, h7⟩ := semanticInvariants_destruct hsem'
  have hhead := headErrors_nil d h1 h2 h3 h4 h5
  have hsongs := allSongErrors_nil existsSync d h7
  rcases validateContents_ok_parts existsSync d hsv with
    ⟨hja, heq⟩ | ⟨ja, en, ts, hja, hen, hts, heq⟩
  · rw [heq, hhead, hsongs]
    rfl
  · have hloc := localeComplete_of_translationComplete h6 hja hen
    have hnil := trans_nil_of_complete hloc
    rw [hnil] at hts
    injection hts with hts
    rw [heq, hhead, ← hts, hsongs]
    rfl

/-- Witness for C1 (amended) at a concrete consistent document. -/
theorem claimC1_witness :
    schemaValid exDocGood = true ∧ semanticInvariantsAmended exFsGood exDocGood = true ∧
    validateContents exFsGood exDocGood = Except.ok [] :=
  ⟨rfl, rfl, claimC1_theorem exFsGood exDocGood rfl rfl⟩

theorem mem_allSongErrors {existsSync : String → Bool} {d : DataFile}
    {song : Song} {chart : Chart} {err : String}
    (hsong : song ∈ d.songs) (hchart : chart ∈ song.charts)
    (herr : err ∈ chartErrors d.meta.styles (diffKeysOf d) d.meta.usesDrawGroups
      d.meta.lvlMax song.name chart) :
    err ∈ allSongErrors existsSync d := by
  unfold allSongErrors
  rw [List.mem_flatMap]
  refine ⟨song, hsong, ?_⟩
  unfold songErrors
  rw [List.mem_append, List.mem_flatMap]
  exact Or.inr ⟨chart, hchart, herr⟩

theorem missing_draw_group_mem {styles diffs : List String} {lvlMax : Int}
    {name : String} {chart : Chart}
    (hdg : truthyInt chart.drawGroup = false) :
    (name ++ " is missing a draw group")
      ∈ chartErrors styles diffs true lvlMax name chart := by
  unfold chartErrors
  rw [List.mem_append]
  right
  rw [hdg]
  simp

theorem validate_reports_missing_dg (existsSync : String → Bool) (d : DataFile)
    (song : Song) (chart : Chart)
    (hsv : schemaValid d = true) (hudg : d.meta.usesDrawGroups = true)
    (hsong : song ∈ d.songs) (hchart : chart ∈ song.charts)
    (hdg : truthyInt chart.drawGroup = false) :
    ∃ es, validateContents existsSync d = Except.ok es ∧
      (song.name ++ " is missing a draw group") ∈ es := by
  have hmem : (song.name ++ " is missing a draw group") ∈ allSongErrors existsSync d := by
    apply mem_allSongErrors hsong hchart
    rw [hudg]
    exact missing_draw_group_mem hdg
  rcases validateContents_ok_parts existsSync d hsv with
    ⟨_, heq⟩ | ⟨ja, en, ts, _, _, _, heq⟩
  · exact ⟨_, heq, by rw [List.mem_append]; exact Or.inr hmem⟩
  · exact ⟨_, heq, by rw [List.mem_append]; exact Or.inr hmem⟩

/-- C4: for every structurally valid document with `meta.usesDrawGroups`
true, every chart lacking a `drawGroup` makes the error list contain
"<song name> is missing a draw group". -/
theorem claimC4_theorem (existsSync : String → Bool) (d : DataFile)
    (song : Song) (chart : Chart)
    (hsv : schemaValid d = true) (hudg : d.meta.usesDrawGroups = true)
    (hsong : song ∈ d.songs) (hchart : chart ∈ song.charts)
    (hdg : chart.drawGroup = none) :
    ∃ es, validateContents existsSync d = Except.ok es ∧
      (song.name ++ " is missing a draw group") ∈ es :=
  validate_reports_missing_dg existsSync d song chart hsv hudg hsong hchart
    (by rw [hdg]; rfl)

/-- C9: with `usesDrawGroups` true, a chart whose `drawGroup` is present but
equal to `0` is still reported as missing a draw group, because the presence
test is JS truthiness. -/
theorem claimC9_theorem (existsSync : String → Bool) (d : DataFile)
    (song : Song) (chart : Chart)
    (hsv : schemaValid d = true) (hudg : d.meta.usesDrawGroups = true)
    (hsong : song ∈ d.songs) (hchart : chart ∈ song.charts)
    (hdg : chart.drawGroup = some 0) :
    ∃ es, validateContents existsSync d = Except.ok es ∧
      (song.name ++ " is missing a draw group") ∈ es :=
  validate_reports_missing_dg existsSync d song chart hsv hudg hsong hchart
    (by rw [hdg]; rfl)

/-- Witness for C9 at the concrete document `exDocC1`. -/
theorem claimC9_witness :
    ∃ es, validateContents exFs exDocC1 = Except.ok es ∧
      ("SongA" ++ " is missing a draw group") ∈ es :=
  claimC9_theorem exFs exDocC1 exSongDg0 exChartDg0 rfl rfl
    (List.mem_cons_self _ _) (List.mem_cons_self _ _) rfl

/-- Witness for C4 at the concrete document `exDocC4`. -/
theorem claimC4_witness :
    ∃ es, validateContents exFs exDocC4 = Except.ok es ∧
      ("SongB" ++ " is missing a draw group") ∈ es :=
  claimC4_theorem exFs exDocC4 exSongNoDg exChartNoDg rfl rfl
    (List.mem_cons_self _ _) (List.mem_cons_self _ _) rfl

/-- C5: for every structurally valid document, `validateContents` terminates
normally with an error list and raises no `TypeError`: in particular the
`i18n.en` and `"$abbr"` accesses in the translation block never fault. -/
theorem claimC5_theorem (existsSync : String → Bool) (d : DataFile)
    (h : schemaValid d = true) :
    ∃ es, validateContents existsSync d = Except.ok es := by
  rcases validateContents_ok_parts existsSync d h with
    ⟨_, heq⟩ | ⟨_, _, _, _, _, _, heq⟩
  · exact ⟨_, heq⟩
  · exact ⟨_, heq⟩

/-- Witness for C5 at the concrete document `exDocGood` (whose ja locale
makes the run enter the translation block). -/
theorem claimC5_witness :
    schemaValid exDocGood = true ∧
    ∃ es, validateContents exFsGood exDocGood = Except.ok es :=
  ⟨rfl, claimC5_theorem exFsGood exDocGood rfl⟩

/-- C2 fails as stated: `exDocFr` is structurally valid and its non-English
locale `fr` lacks a translation for the key "single" of `styles`, yet the
validator returns no error at all (the code only ever inspects the `ja`
locale). -/
theorem claimC2_counterexample :
    schemaValid exDocFr = true ∧
    List.lookup "fr" exDocFr.i18n = some exFrLoc ∧
    "single" ∈ allKeysOf exDocFr ∧
    hasTr exFrLoc "single" = false ∧
    validateContents exFs exDocFr = Except.ok [] :=
  ⟨rfl, rfl, by decide, rfl, rfl⟩

/-- C2 (amended): for every structurally valid document whose i18n contains
the `ja` locale, each key of `styles ∪ difficulties ∪ flags` lacking a
(truthy) translation in `en` or in `ja` yields a
"missing translation for <key>" entry, and each difficulty key lacking an
abbreviated translation in either locale yields a
"missing abbreviated translation for <key>" entry. -/
theorem claimC2_theorem (existsSync : String → Bool) (d : DataFile)
    (ja en : I18NDict) (key : String)
    (hsv : schemaValid d = true)
    (hja : List.lookup "ja" d.i18n = some ja)
    (hen : List.lookup "en" d.i18n = some en)
    (hkey : key ∈ allKeysOf d) :
    ∃ es, validateContents existsSync d = Except.ok es ∧
      ((hasTr en key && hasTr ja key) = false →
        ("missing translation for " ++ key) ∈ es) ∧
      ((diffKeysOf d).contains key = true →
        (hasAbbrTr en key && hasAbbrTr ja key) = false →
        ("missing abbreviated translation for " ++ key) ∈ es) := by
  rcases validateContents_ok_parts existsSync d hsv with
    ⟨hja', _⟩ | ⟨ja', en', ts, hja', hen', hts, heq⟩
  · rw [hja] at hja'
    cases hja'
  · rw [hja] at hja'
    injection hja' with hja'
    rw [hen] at hen'
    injection hen' with hen'
    subst hja'
    subst hen'
    have hchar := translationErrors_ok_eq en ja (diffKeysOf d) (allKeysOf d) ts hts
    refine ⟨_, heq, ?_, ?_⟩
    · intro hmiss
      rw [List.mem_append, List.mem_append]
      left; right
      rw [hchar, List.mem_flatMap]
      refine ⟨key, hkey, ?_⟩
      unfold perKeyErrors
      rw [hmiss]
      simp
    · intro hdk habbr
      rw [List.mem_append, List.mem_append]
      left; right
      rw [hchar, List.mem_flatMap]
      refine ⟨key, hkey, ?_⟩
      unfold perKeyErrors
      rw [habbr, hdk]
      simp

/-- Witness for C2 (amended) at the concrete document `exDocC2` and
key "basic". -/
theorem claimC2_witness :
    ∃ es, validateContents exFs exDocC2 = Except.ok es ∧
      ((hasTr exEnLocC2 "basic" && hasTr exJaLocC2 "basic") = false →
        ("missing translation for " ++ "basic") ∈ es) ∧
      ((diffKeysOf exDocC2).contains "basic" = true →
        (hasAbbrTr exEnLocC2 "basic" && hasAbbrTr exJaLocC2 "basic") = false →
        ("missing abbreviated translation for " ++ "basic") ∈ es) :=
  claimC2_theorem exFs exDocC2 exJaLocC2 exEnLocC2 "basic" rfl rfl rfl (by decide)

/-- C3: when the schema validator reports a document structurally invalid,
the driver reports exactly the schema validator's errors and never a
consistency report — `validateContents` is not run. -/
theorem claimC3_theorem (sv : SchemaValidator) (existsSync : String → Bool)
    (d : DataFile) (h : sv.valid d = false) :
    processDoc sv existsSync d = Except.ok (DocReport.schemaFailure (sv.errors d)) ∧
    ∀ es, processDoc sv existsSync d ≠ Except.ok (DocReport.consistency es) := by
  have hp : processDoc sv existsSync d
      = Except.ok (DocReport.schemaFailure (sv.errors d)) := by
    unfold processDoc
    rw [h]
    simp
  refine ⟨hp, ?_⟩
  intro es hcontra
  rw [hp] at hcontra
  injection hcontra with hcontra
  cases hcontra

/-- Witness for C3 at a concrete rejecting validator and document. -/
theorem claimC3_witness :
    processDoc exBadValidator exFs exDocGood
      = Except.ok (DocReport.schemaFailure (exBadValidator.errors exDocGood)) ∧
    ∀ es, processDoc exBadValidator exFs exDocGood
      ≠ Except.ok (DocReport.consistency es) :=
  claimC3_theorem exBadValidator exFs exDocGood rfl

theorem runValidator_jackets_eq {sv : SchemaValidator} {compiled : String}
    {docs : List DataFile} {st : RunState} {res : List DocReport} {st' : RunState}
    (h : runValidator sv compiled docs st = Except.ok (res, st')) :
    st'.jackets = st.jackets := by
  unfold runValidator at h
  split at h
  · cases h
  · split at h
    · injection h with h
      rw [show st' = st from (Prod.mk.injEq .. |>.mp h).2.symm]
    · injection h with h
      rw [show st' = { st with bindings := some compiled }
        from (Prod.mk.injEq .. |>.mp h).2.symm]

/-- C7: the run is deterministic and idempotent: a second run from the state
the first run produced yields the same per-document reports and leaves the
state (including the generated binding output) unchanged. -/
theorem claimC7_theorem (sv : SchemaValidator) (compiled : String)
    (docs : List DataFile) (st : RunState) (r1 r2 : List DocReport)
    (st1 st2 : RunState)
    (h1 : runValidator sv compiled docs st = Except.ok (r1, st1))
    (h2 : runValidator sv compiled docs st1 = Except.ok (r2, st2)) :
    r2 = r1 ∧ st2 = st1 := by
  have hj : st1.jackets = st.jackets := runValidator_jackets_eq h1
  unfold runValidator at h1 h2
  rw [hj] at h2
  split at h1
  · cases h1
  · rename_i reports hrep
    split at h2
    · rename_i hrep2
      rw [hrep] at hrep2
      cases hrep2
    · rename_i reports2 hrep2
      rw [hrep] at hrep2
      injection hrep2 with hrep2
      subst hrep2
      by_cases hany : reports.any reportHasError = true
      · rw [if_pos hany] at h1 h2
        injection h1 with h1
        cases h1
        injection h2 with h2
        cases h2
        exact ⟨rfl, rfl⟩
      · rw [if_neg hany] at h1 h2
        injection h1 with h1
        cases h1
        injection h2 with h2
        cases h2
        exact ⟨rfl, rfl⟩

/-- Witness for C7: a concrete successful run followed by a rerun from the
state it produced. -/
theorem claimC7_witness :
    runValidator exOkValidator "generated bindings" [exDocGood] exState
      = Except.ok ([DocReport.consistency []],
          { jackets := exFsGood, bindings := some "generated bindings" }) ∧
    ([DocReport.consistency []] : List DocReport) = [DocReport.consistency []] ∧
    ({ jackets := exFsGood, bindings := some "generated bindings" } : RunState)
      = { jackets := exFsGood, bindings := some "generated bindings" } :=
  ⟨rfl, claimC7_theorem exOkValidator "generated bindings" [exDocGood] exState
    _ _ _ _ rfl rfl⟩

/-- C8: for every structurally valid document the error list is exactly the
fixed order of §4.1: level-max sanity, default-style membership,
default-difficulties membership, bounds-reversed, bounds-beyond-max, the
per-key translation errors, then per-song errors (jacket, then per-chart
style, diffClass, draw-group/level) in document order. -/
theorem claimC8_theorem (existsSync : String → Bool) (d : DataFile)
    (es : List String) (h : validateContents existsSync d = Except.ok es) :
    ∃ ts, ((List.lookup "ja" d.i18n = none ∧ ts = []) ∨
       (∃ ja, List.lookup "ja" d.i18n = some ja ∧
          translationErrors (List.lookup "en" d.i18n) ja (diffKeysOf d) (allKeysOf d)
            = Except.ok ts)) ∧
      es = levelMaxCheck d ++ defaultStyleCheck d ++ defaultDifficultiesCheck d ++
        boundsReversedCheck d ++ boundsBeyondMaxCheck d ++ ts ++
        d.songs.flatMap (songCheckList existsSync d) := by
  obtain ⟨ts, hes, hcase⟩ := validateContents_ok_inv existsSync d es h
  refine ⟨ts, hcase, ?_⟩
  rw [hes]
  have hhead : headErrors d = levelMaxCheck d ++ defaultStyleCheck d ++
      defaultDifficultiesCheck d ++ boundsReversedCheck d ++ boundsBeyondMaxCheck d := rfl
  have hsongs : allSongErrors existsSync d = d.songs.flatMap (songCheckList existsSync d) := by
    unfold allSongErrors
    apply List.flatMap_congr  -- may not exist; fallback below
    intro song hmem
    rfl
  rw [hhead, hsongs]

/-- Witness for C8 at the concrete document `exDocC1`. -/
theorem claimC8_witness :
    ∃ ts, ((List.lookup "ja" exDocC1.i18n = none ∧ ts = []) ∨
       (∃ ja, List.lookup "ja" exDocC1.i18n = some ja ∧
          translationErrors (List.lookup "en" exDocC1.i18n) ja (diffKeysOf exDocC1)
            (allKeysOf exDocC1) = Except.ok ts)) ∧
      ["SongA is missing a draw group"] = levelMaxCheck exDocC1 ++
        defaultStyleCheck exDocC1 ++ defaultDifficultiesCheck exDocC1 ++
        boundsReversedCheck exDocC1 ++ boundsBeyondMaxCheck exDocC1 ++ ts ++
        exDocC1.songs.flatMap (songCheckList exFs exDocC1) :=
  claimC8_theorem exFs exDocC1 ["SongA is missing a draw group"] rfl

/-- C10: `getDiffAbbr` reads only the English locale's `$abbr` dictionary:
its result is invariant under any change to other locales, and whenever the
English locale and its `$abbr` are present it returns exactly that
dictionary's entry for the difficulty class. -/
theorem claimC10_theorem (g g' : DataFile) (diffClass : String)
    (hagree : List.lookup "en" g.i18n = List.lookup "en" g'.i18n) :
    getDiffAbbr g diffClass = getDiffAbbr g' diffClass ∧
    ∀ en ab, List.lookup "en" g.i18n = some en → en.abbr = some ab →
      getDiffAbbr g diffClass = Except.ok (List.lookup diffClass ab) := by
  constructor
  · unfold getDiffAbbr
    rw [hagree]
  · intro en ab hen hab
    unfold getDiffAbbr
    simp only [hen, hab]

/-- Witness for C10: adding a `fr` locale to `exDocGood` leaves
`getDiffAbbr` unchanged, and its value is the English `$abbr` entry. -/
theorem claimC10_witness :
    (getDiffAbbr exDocGood "basic" = getDiffAbbr exDocC10 "basic") ∧
    ∀ en ab, List.lookup "en" exDocGood.i18n = some en → en.abbr = some ab →
      getDiffAbbr exDocGood "basic" = Except.ok (List.lookup "basic" ab) :=
  claimC10_theorem exDocGood exDocC10 "basic" rfl

theorem headErrors_shape {d : DataFile} {x : String} (h : x ∈ headErrors d) :
    x = "max level is below 1" ∨ x = "default style is not listed in meta" ∨
    x = "some default difficulties are missing from meta" ∨
    x = "default level bounds are reversed" ∨
    x = "default level bounds are beyond max level" := by
  unfold headErrors at h
  simp only [List.mem_append] at h
  rcases h with ((((h | h) | h) | h) | h)
  · exact Or.inl (mem_ite_singleton h)
  · right; left
    split at h
    · exact mem_ite_singleton h
    · simp at h
  · exact Or.inr (Or.inr (Or.inl (mem_ite_singleton h)))
  · exact Or.inr (Or.inr (Or.inr (Or.inl (mem_ite_singleton h))))
  · exact Or.inr (Or.inr (Or.inr (Or.inr (mem_ite_singleton h))))

theorem perKeyErrors_shape {en ja : I18NDict} {diffs : List String} {key x : String}
    (h : x ∈ perKeyErrors en ja diffs key) :
    (∃ k, x = "missing translation for " ++ k) ∨
    (∃ k, x = "missing abbreviated translation for " ++ k) := by
  unfold perKeyErrors at h
  rw [List.mem_append] at h
  rcases h with h | h
  · exact Or.inl ⟨key, mem_ite_singleton h⟩
  · exact Or.inr ⟨key, mem_ite_singleton h⟩

theorem chartErrors_shape {styles diffs : List String} {udg : Bool} {lvlMax : Int}
    {name x : String} {c : Chart}
    (h : x ∈ chartErrors styles diffs udg lvlMax name c) :
    (∃ a b, x = "unrecognized style \"" ++ a ++ "\" used by " ++ b) ∨
    (∃ a b, x = "unrecognized diffClass \"" ++ a ++ "\" used by " ++ b) ∨
    (∃ n, x = n ++ " is missing a draw group") ∨
    (∃ n, x = n ++ " has draw group above max") ∨
    (∃ n, x = n ++ " has chart above level max") := by
  unfold chartErrors at h
  simp only [List.mem_append] at h
  rcases h with (h | h) | h
  · exact Or.inl ⟨c.style, name, mem_ite_singleton h⟩
  · exact Or.inr (Or.inl ⟨c.diffClass, name, mem_ite_singleton h⟩)
  · split at h
    · split at h
      · right; right; left
        exact ⟨name, by simpa using h⟩
      · split at h
        · right; right; right; left
          exact ⟨name, by simpa using h⟩
        · simp at h
    · split at h
      · right; right; right; right
        exact ⟨name, mem_ite_singleton h⟩
      · simp at h

theorem songErrors_shape {existsSync : String → Bool} {styles diffs : List String}
    {udg : Bool} {lvlMax : Int} {song : Song} {x : String}
    (h : x ∈ songErrors existsSync styles diffs udg lvlMax song) :
    (∃ j, x = "missing jacket image " ++ j) ∨
    (∃ a b, x = "unrecognized style \"" ++ a ++ "\" used by " ++ b) ∨
    (∃ a b, x = "unrecognized diffClass \"" ++ a ++ "\" used by " ++ b) ∨
    (∃ n, x = n ++ " is missing a draw group") ∨
    (∃ n, x = n ++ " has draw group above max") ∨
    (∃ n, x = n ++ " has chart above level max") := by
  unfold songErrors at h
  rw [List.mem_append] at h
  rcases h with h | h
  · split at h
    · exact Or.inl ⟨_, mem_ite_singleton h⟩
    · simp at h
  · rw [List.mem_flatMap] at h
    obtain ⟨c, _, hc⟩ := h
    exact Or.inr (chartErrors_shape hc)

theorem string_append4_ne (p a q b c : String) (h : ¬ p.data <+: c.data) :
    p ++ a ++ q ++ b ≠ c := by
  rw [String.append_assoc, String.append_assoc]
  exact string_append_left_ne p c h _

theorem translationErrors_none_ok {ja : I18NDict} {diffs : List String} :
    ∀ {keys : List String} {ts : List String},
    translationErrors none ja diffs keys = Except.ok ts → ts = [] := by
  intro keys ts h
  cases keys with
  | nil =>
    injection h with h
    exact h.symm
  | cons k rest => simp [translationErrors] at h

/-- C6: the membership of `defaults.flags` in `meta.flags` is never checked:
changing `defaults.flags` never changes the validator's output, and the
commented-out violation string "some default flags are missing from meta"
never occurs in any output. -/
theorem claimC6_theorem :
    (∀ (existsSync : String → Bool) (d : DataFile) (fl : List String),
       validateContents existsSync (withDefaultFlags d fl)
         = validateContents existsSync d) ∧
    (∀ (existsSync : String → Bool) (d : DataFile) (es : List String),
       validateContents existsSync d = Except.ok es →
       "some default flags are missing from meta" ∉ es) := by
  constructor
  · intro existsSync d fl
    cases d with
    | mk m df i s =>
      cases df with
      | mk st diffs flags lo hi => rfl
  · intro existsSync d es h hmem
    obtain ⟨ts, hes, hcase⟩ := validateContents_ok_inv existsSync d es h
    subst hes
    rw [List.mem_append, List.mem_append] at hmem
    rcases hmem with (hmem | hmem) | hmem
    · rcases headErrors_shape hmem with h1 | h1 | h1 | h1 | h1 <;>
        revert h1 <;> decide
    · rcases hcase with ⟨_, hts⟩ | ⟨ja, _, hts⟩
      · subst hts
        simp at hmem
      · cases hen : List.lookup "en" d.i18n with
        | none =>
          rw [hen] at hts
          rw [translationErrors_none_ok hts] at hmem
          simp at hmem
        | some en =>
          rw [hen] at hts
          rw [translationErrors_ok_eq en ja _ _ ts hts, List.mem_flatMap] at hmem
          obtain ⟨k, _, hk⟩ := hmem
          rcases perKeyErrors_shape hk with ⟨k', hx⟩ | ⟨k', hx⟩
          · exact string_append_left_ne "missing translation for " _
              (by decide) k' hx.symm
          · exact string_append_left_ne "missing abbreviated translation for " _
              (by decide) k' hx.symm
    · unfold allSongErrors at hmem
      rw [List.mem_flatMap] at hmem
      obtain ⟨song, _, hs⟩ := hmem
      rcases songErrors_shape hs with
        ⟨j, hx⟩ | ⟨a, b, hx⟩ | ⟨a, b, hx⟩ | ⟨n, hx⟩ | ⟨n, hx⟩ | ⟨n, hx⟩
      · exact string_append_left_ne "missing jacket image " _ (by decide) j hx.symm
      · exact string_append4_ne "unrecognized style \"" a "\" used by " b _
          (by decide) hx.symm
      · exact string_append4_ne "unrecognized diffClass \"" a "\" used by " b _
          (by decide) hx.symm
      · exact string_append_right_ne " is missing a draw group" _ (by decide) n hx.symm
      · exact string_append_right_ne " has draw group above max" _ (by decide) n hx.symm
      · exact string_append_right_ne " has chart above level max" _ (by decide) n hx.symm

/-- Witness for C6 at concrete inputs: changing `defaults.flags` of
`exDocGood` does not change the output, and the flags violation string is
absent from the concrete output. -/
theorem claimC6_witness :
    validateContents exFsGood (withDefaultFlags exDocGood ["somethingElse"])
      = validateContents exFsGood exDocGood ∧
    "some default flags are missing from meta" ∉ ([] : List String) :=
  ⟨claimC6_theorem.1 exFsGood exDocGood ["somethingElse"],
   claimC6_theorem.2 exFsGood exDocGood [] rfl⟩

